import Mathlib

/-!
Verification of the copa_convert repository (utils/blog_arch.py and
utils/convert_post.py) against its natural-language specification.

The Python sources are shallowly embedded below.  Strings are modelled by
Lean `String` (a wrapper around `List Char`), and all helper functions are
written by structural recursion (with explicit fuel where the source loop
jumps by more than one element) so that every definition evaluates inside
the kernel on concrete inputs.

External collaborators are modelled as parameters:
  - the HTTP client is an oracle `dl : String → Bool` (True = the download
    of that URL succeeds, False = it raises); `download_file` itself only
    streams bytes to disk, so the oracle is its whole observable behaviour;
  - the regex scans of blog_arch.py (`re.finditer` over the HTML text,
    yielding the captured href/content/src attribute values) are modelled
    as scanner functions `String → List String` from the HTML text to the
    list of captured original URLs, applied to the same intermediate HTML
    text as in the source;
  - `requests.get(...).text` for a page is a function `fetch : String → String`;
  - the timestamp formatting `parse_iso_z` + `strftime` is a function
    `fmtTs : String → String` (no claim depends on its value).

Side effects (directory creation, file writes, download attempts, console
messages) are collected into explicit effect lists.
-/

namespace Copa

/-! ## Basic string utilities (List Char based, kernel-computable) -/

/-- Prefix test on character lists. -/
def isPrefixL (p s : List Char) : Bool := p.isPrefixOf s

/-- Model of Python `str.startswith`. -/
def startsWithStr (p s : String) : Bool := isPrefixL p.data s.data

/-- Substring containment, the model of Python `in` for nonempty needles. -/
def containsSubL (pat : List Char) : List Char → Bool
  | [] => pat.isPrefixOf []
  | c :: t => pat.isPrefixOf (c :: t) || containsSubL pat t

/-- Substring containment on `String`. -/
def containsSubStr (pat s : String) : Bool := containsSubL pat.data s.data

/-- Fuelled worker for `replaceAllL`.  Each step either copies one
character or consumes the whole (nonempty) pattern, so fuel equal to the
length of the text suffices; the fuel-exhausted branch is unreachable from
`replaceAllL`. -/
def replaceAllGo (pat repl : List Char) : Nat → List Char → List Char
  | _, [] => []
  | 0, s => s
  | fuel + 1, c :: cs =>
    if !pat.isEmpty && pat.isPrefixOf (c :: cs) then
      repl ++ replaceAllGo pat repl fuel (List.drop (pat.length - 1) cs)
    else
      c :: replaceAllGo pat repl fuel cs

/-- Model of Python `str.replace`: replace every (leftmost, non-overlapping)
occurrence of `pat` by `repl`; replacement text is not rescanned.  (The
Python behaviour for an empty pattern is irrelevant here: every original
URL captured by the regexes `[^"\x27]+` is nonempty.) -/
def replaceAllL (pat repl s : List Char) : List Char :=
  replaceAllGo pat repl s.length s

/-- Python `str.replace` on `String`. -/
def replaceAllStr (pat repl s : String) : String :=
  String.mk (replaceAllL pat.data repl.data s.data)

/-! ## URL utilities: models of `urllib.parse.urljoin`, `urlparse().path`
and `os.path.basename`, faithful on the URL shapes exercised here
(absolute http(s)/data URLs, relative references with `.` segments). -/

/-- Does the string begin with a URI scheme (`alpha (alnum|+|-|.)* ":"`),
as urllib's scheme detection does? -/
def hasSchemeL (u : List Char) : Bool :=
  let pre := u.takeWhile (· ≠ ':')
  decide (pre.length < u.length) && !pre.isEmpty &&
    (match pre with
     | [] => false
     | c :: rest =>
       c.isAlpha && rest.all (fun d => d.isAlphanum || d = '+' || d = '-' || d = '.'))

/-- Split an absolute URL into `(scheme://host, path-and-rest)`; a string
without `://` is returned as `([], u)`. -/
def splitOrigin (u : List Char) : List Char × List Char :=
  let sch := u.takeWhile (· ≠ ':')
  let rest := u.drop sch.length
  if isPrefixL [':', '/', '/'] rest then
    let rest2 := rest.drop 3
    let host := rest2.takeWhile (· ≠ '/')
    (sch ++ [':', '/', '/'] ++ host, rest2.drop host.length)
  else ([], u)

/-- Path component of a URL (model of `urlparse(u).path`): what follows the
authority, cut at the query or fragment. -/
def urlPathL (u : List Char) : List Char :=
  (splitOrigin u).2.takeWhile (fun c => !(c = '?') && !(c = '#'))

/-- Model of POSIX `os.path.basename`: the part after the last slash. -/
def basenameL (p : List Char) : List Char :=
  (p.reverse.takeWhile (· ≠ '/')).reverse

/-- Directory prefix of a path, up to and including the last slash. -/
def dirOfL (p : List Char) : List Char :=
  (p.reverse.dropWhile (· ≠ '/')).reverse

/-- Split a path at slashes. -/
def splitSlash : List Char → List (List Char)
  | [] => [[]]
  | c :: cs =>
    if c = '/' then [] :: splitSlash cs
    else
      match splitSlash cs with
      | [] => [[c]]
      | s :: rest => (c :: s) :: rest

/-- Dot-segment normalization (`.` and `..`), as urljoin performs. -/
def normSegs (segs : List (List Char)) : List (List Char) :=
  segs.foldl
    (fun acc seg =>
      if seg = ['.'] then acc
      else if seg = ['.', '.'] then acc.dropLast
      else acc ++ [seg])
    []

/-- Rejoin path segments with slashes. -/
def joinSegs : List (List Char) → List Char
  | [] => []
  | [s] => s
  | s :: rest => s ++ '/' :: joinSegs rest

/-- Model of `urllib.parse.urljoin base rel` on character lists. -/
def urljoinL (base rel : List Char) : List Char :=
  if rel.isEmpty then base
  else if hasSchemeL rel then rel
  else if isPrefixL ['/', '/'] rel then base.takeWhile (· ≠ ':') ++ ':' :: rel
  else
    let origin := (splitOrigin base).1
    if isPrefixL ['/'] rel then origin ++ joinSegs (normSegs (splitSlash rel))
    else
      let dir := if (dirOfL (urlPathL base)).isEmpty then ['/'] else dirOfL (urlPathL base)
      origin ++ joinSegs (normSegs (splitSlash (dir ++ rel)))

/-- Model of `urllib.parse.urljoin` on `String`. -/
def urljoin (base rel : String) : String := String.mk (urljoinL base.data rel.data)

/-- `os.path.basename(urlparse(full).path)`, the local filename derived
from a resolved URL (blog_arch.py lines 91/116/137/154, convert_post.py
line 71). -/
def urlBasename (full : String) : String := String.mk (basenameL (urlPathL full.data))

/-- Association-list lookup (model of Python `dict` membership / BeautifulSoup
attribute lookup). -/
def alookup : List (String × String) → String → Option String
  | [], _ => none
  | (k, v) :: rest, key => if k = key then some v else alookup rest key

/-! ## Bulk archiver (utils/blog_arch.py) -/

/-- One entry of a feed `link` array (`{rel, type, href}`); a key missing
from the JSON object is modelled by the empty string. -/
structure Lk where
  rel : String
  typ : String
  href : String
deriving DecidableEq

/-- A feed post entry: `title.$t`, `published.$t` and the `link` array. -/
structure Post where
  title : String
  published : String
  links : List Lk
deriving DecidableEq

/-- The canonical HTML URL of a post (blog_arch.py lines 67-71): the first
link with `rel="alternate"` and `type="text/html"`. -/
def htmlLink (post : Post) : Option String :=
  (post.links.find? (fun L => L.rel = "alternate" ∧ L.typ = "text/html")).map Lk.href

/-- Mutable state threaded through the image-discovery loops of
`archive_post` (blog_arch.py steps 4a-4c): the original-url → local-path
`mapping`, plus the effect trace of download attempts and console
messages. -/
structure ArchSt where
  mapping : List (String × String)
  attempts : List String
  logs : List String
deriving DecidableEq

/-- One iteration of an image-discovery loop of `archive_post`
(blog_arch.py lines 107-163; the three loops differ only in the regex —
modelled by the scanner — and the message tag `kind`):
skip data URIs and already-mapped originals, resolve against the page URL,
skip an empty basename, attempt the download, and on success record the
`orig ↦ ./images/name` mapping entry. -/
def procImageRef (dl : String → Bool) (pageUrl kind : String) (st : ArchSt)
    (orig : String) : ArchSt :=
  if startsWithStr "data:" orig || (alookup st.mapping orig).isSome then st
  else
    let full := urljoin pageUrl orig
    let name := urlBasename full
    if name = "" then st
    else if dl full then
      { mapping := st.mapping ++ [(orig, "./images/" ++ name)],
        attempts := st.attempts ++ [full],
        logs := st.logs ++ ["OK " ++ kind ++ " " ++ name] }
    else
      { st with
        attempts := st.attempts ++ [full],
        logs := st.logs ++ ["ERR " ++ kind ++ " " ++ full] }

/-- The three image-discovery passes of `archive_post` in source order:
`<link rel="image_src">`, `<meta property="og:image">`, `<img src=...>`,
threading one mapping (blog_arch.py lines 104-163). -/
def imagePhases (dl : String → Bool) (pageUrl : String)
    (srcRefs ogRefs imgRefs : List String) (st : ArchSt) : ArchSt :=
  ((srcRefs.foldl (procImageRef dl pageUrl "IMAGE_SRC") st)
    |> (fun s => ogRefs.foldl (procImageRef dl pageUrl "OG-IMAGE") s))
    |> (fun s => imgRefs.foldl (procImageRef dl pageUrl "IMG") s)

/-- State threaded through the stylesheet loop of `archive_post`
(blog_arch.py lines 84-99): the HTML text being rewritten in place, plus
the effect trace. -/
structure CssSt where
  html : String
  attempts : List String
  logs : List String
deriving DecidableEq

/-- One iteration of the stylesheet loop (blog_arch.py lines 84-99):
resolve the href, fall back to `style.css` for an empty basename, attempt
the download unconditionally (no data-URI check, no mapping check), and on
success replace every occurrence of the original href substring in the
HTML text. -/
def procCssRef (dl : String → Bool) (pageUrl : String) (st : CssSt)
    (orig : String) : CssSt :=
  let full := urljoin pageUrl orig
  let nm := urlBasename full
  let name := if nm = "" then "style.css" else nm
  if dl full then
    { html := replaceAllStr orig ("./css/" ++ name) st.html,
      attempts := st.attempts ++ [full],
      logs := st.logs ++ ["OK CSS " ++ name] }
  else
    { st with
      attempts := st.attempts ++ [full],
      logs := st.logs ++ ["ERR CSS " ++ full] }

/-- Step 5 of `archive_post` (blog_arch.py lines 165-167): for every entry
of the accumulated mapping, in insertion order, replace every occurrence
of the original URL by its local path. -/
def finalRewrite (mapping : List (String × String)) (html : String) : String :=
  mapping.foldl (fun acc p => replaceAllStr p.1 p.2 acc) html

/-- External collaborators of `archive_post`: the download oracle, the page
fetcher, the four regex scanners (from HTML text to the captured attribute
values, in document order) and the published-timestamp formatter. -/
structure ArchEnv where
  dl : String → Bool
  fetch : String → String
  scanCss : String → List String
  scanImageSrc : String → List String
  scanOgImage : String → List String
  scanImgTags : String → List String
  fmtTs : String → String

/-- Observable outcome of `archive_post`: directories created, download
attempts, console messages, files written, and whether the post was
skipped for lack of an HTML link. -/
structure ArchOut where
  dirs : List String
  attempts : List String
  logs : List String
  writes : List (String × String)
  skipped : Bool
deriving DecidableEq

/-- Model of `archive_post` (blog_arch.py lines 58-174).  The post
directory is created (line 64) before the HTML link is looked up; a post
without an HTML link is then skipped with a warning.  Otherwise the page
is fetched, stylesheets are downloaded and rewritten in place, the three
image passes accumulate the mapping over the css-rewritten text, the final
pass substitutes every mapping entry, and `index.html` is written. -/
def archivePost (env : ArchEnv) (post : Post) (outRoot : String) : ArchOut :=
  let postDir := outRoot ++ "/" ++ env.fmtTs post.published
  match htmlLink post with
  | none =>
    { dirs := [postDir], attempts := [], logs := ["SKIP " ++ post.title],
      writes := [], skipped := true }
  | some url =>
    let html0 := env.fetch url
    let cssSt := (env.scanCss html0).foldl (procCssRef env.dl url)
      { html := html0, attempts := [], logs := [] }
    let html1 := cssSt.html
    let st := imagePhases env.dl url (env.scanImageSrc html1)
      (env.scanOgImage html1) (env.scanImgTags html1)
      { mapping := [], attempts := cssSt.attempts, logs := cssSt.logs }
    let html2 := finalRewrite st.mapping html1
    { dirs := [postDir, postDir ++ "/css", postDir ++ "/images"],
      attempts := st.attempts,
      logs := st.logs ++ ["ARCHIVED " ++ post.title],
      writes := [(postDir ++ "/index.html", html2)],
      skipped := false }

/-! ## Feed pagination (utils/blog_arch.py, fetch_entries) -/

/-- The fixed feed page size (blog_arch.py line 32). -/
def pageSize : Nat := 100

/-- Decimal digits of a natural number (fuelled, kernel-computable). -/
def natToCharsGo : Nat → Nat → List Char
  | 0, _ => []
  | fuel + 1, n =>
    if n < 10 then [Char.ofNat (48 + n)]
    else natToCharsGo fuel (n / 10) ++ [Char.ofNat (48 + n % 10)]

/-- Decimal rendering of a natural number. -/
def natToStr (n : Nat) : String := String.mk (natToCharsGo (n + 1) n)

/-- Strip trailing slashes (Python `str.rstrip('/')`, blog_arch.py line 29). -/
def rstripSlash (s : String) : String :=
  String.mk ((s.data.reverse.dropWhile (· = '/')).reverse)

/-- The feed URL requested for one page (blog_arch.py lines 34-38). -/
def feedUrl (base startT endT : String) (idx ps : Nat) : String :=
  rstripSlash base ++ "/feeds/posts/default?alt=json&published-min=" ++ startT
    ++ "&published-max=" ++ endT ++ "&start-index=" ++ natToStr idx
    ++ "&max-results=" ++ natToStr ps

/-- The paging loop of `fetch_entries` (blog_arch.py lines 33-48), with the
feed service modelled as a function from start index to the returned
`entry` batch.  Returns the requested URLs and the accumulated entries;
`none` means the fuel ran out (the Python loop is unbounded). -/
def fetchEntriesGo {α : Type} (base startT endT : String) (feed : Nat → List α) :
    Nat → Nat → Option (List String × List α)
  | _, 0 => none
  | idx, fuel + 1 =>
    let batch := feed idx
    let url := feedUrl base startT endT idx pageSize
    if batch.isEmpty then some ([url], [])
    else if batch.length < pageSize then some ([url], batch)
    else
      match fetchEntriesGo base startT endT feed (idx + batch.length) fuel with
      | none => none
      | some (us, es) => some (url :: us, batch ++ es)

/-- Model of `fetch_entries` (blog_arch.py lines 28-49): page through the
feed starting at start-index 1. -/
def fetchEntries {α : Type} (base startT endT : String) (feed : Nat → List α)
    (fuel : Nat) : Option (List String × List α) :=
  fetchEntriesGo base startT endT feed 1 fuel

/-- The start indices the paging loop visits over a feed of `n` entries
served in pages of `pageSize`. -/
def pageStarts (idx n : Nat) : List Nat :=
  if pageSize ≤ n then idx :: pageStarts (idx + pageSize) (n - pageSize)
  else [idx]
termination_by n
decreasing_by
  have : 0 < pageSize := by decide
  omega

/-! ## Single-post converter (utils/convert_post.py)

The parsed document is a tree of elements and text.  BeautifulSoup keeps
the `class` attribute as a list of class names; it is modelled as a
separate field next to the remaining attributes. -/

/-- A DOM node: text, or an element with a tag, its non-class attributes,
its class list, and its children. -/
inductive Node where
  | text : String → Node
  | el : String → List (String × String) → List String → List Node → Node

/-- The closed allow-list of div classes (convert_post.py lines 14-25). -/
def allowedDivClasses : List String :=
  ["epigraph", "fullwidth", "iframe-wrapper", "margin-toggle",
   "sidenote-number", "marginnote", "newthought", "sans", "sidenote",
   "subtitle"]

/-! Does this forest contain an `img` element (model of `div.find("img")`,
which searches all descendants)? -/
mutual

def containsImg : Node → Bool
  | .text _ => false
  | .el tag _ _ children => tag = "img" || containsImgNode children

def containsImgNode : List Node → Bool
  | [] => false
  | c :: rest => containsImg c || containsImgNode rest

end

/-- Remove one attribute (model of `attrs.pop(key, None)`). -/
def removeAttr : List (String × String) → String → List (String × String)
  | [], _ => []
  | (k, v) :: rest, key => if k = key then rest else (k, v) :: removeAttr rest key

/-! Step 1 of the converter cleanup (convert_post.py lines 51-55): every
`div` with class `separator` that contains an `img` becomes a `figure`,
dropping its `class` and `style` attributes.  `find_all` collects the
(static) list of all such divs up front, so nested separators are also
converted; the recursion visits them the same way. -/
mutual

def sepToFigureN : Node → Node
  | .text s => .text s
  | .el tag attrs classes children =>
    if tag = "div" && classes.contains "separator" && containsImgNode children then
      .el "figure" (removeAttr attrs "style") [] (sepToFigure children)
    else
      .el tag attrs classes (sepToFigure children)

def sepToFigure : List Node → List Node
  | [] => []
  | c :: rest => sepToFigureN c :: sepToFigure rest

end

/-! Step 2 of the converter cleanup (convert_post.py lines 58-63): each
remaining `div` keeps only its allowed classes; a div with no allowed
class is unwrapped (removed, children spliced into the parent).  The
`find_all("div")` list is computed before any mutation, so divs exposed by
an unwrap are still processed, exactly as this recursion does. -/
mutual

def cleanDivsN : Node → List Node
  | .text s => [.text s]
  | .el tag attrs classes children =>
    if tag = "div" then
      let kept := classes.filter (fun c => allowedDivClasses.contains c)
      if kept.isEmpty then cleanDivs children
      else [.el "div" attrs kept (cleanDivs children)]
    else
      [.el tag attrs classes (cleanDivs children)]

def cleanDivs : List Node → List Node
  | [] => []
  | c :: rest => cleanDivsN c ++ cleanDivs rest

end

/-- Eligibility of an `img` for step 3 of the converter (convert_post.py
lines 67-73): it is skipped (`continue`, so neither downloaded nor
wrapped) when it has no `src`, an empty `src`, a data-URI `src`, or a
resolved URL with an empty path basename. -/
def imgEligible (base : String) (attrs : List (String × String)) : Bool :=
  match alookup attrs "src" with
  | none => false
  | some src =>
    if src = "" then false
    else if startsWithStr "data:" src then false
    else if urlBasename (urljoin base src) = "" then false
    else true

/-- Replace (or append) one attribute (model of `img["src"] = ...`). -/
def setAttr : List (String × String) → String → String → List (String × String)
  | [], k, v => [(k, v)]
  | (k2, v2) :: rest, k, v =>
    if k2 = k then (k, v) :: rest else (k2, v2) :: setAttr rest k v

/-- The download-and-rewrite part of one step-3 iteration (convert_post.py
lines 74-80): on a successful download the `src` becomes `img/<name>`; on
failure the original remote `src` is kept. -/
def rewriteSrcAttr (dl : String → Bool) (base : String)
    (attrs : List (String × String)) : List (String × String) :=
  match alookup attrs "src" with
  | none => attrs
  | some src =>
    let full := urljoin base src
    let name := urlBasename full
    if dl full then setAttr attrs "src" ("img/" ++ name) else attrs

/-! Step 3 of the converter (convert_post.py lines 66-89), as a
document-order walk.  `inFig` records whether a `figure` ancestor exists
(the `img.find_parent("figure")` test).  Every eligible `img` has its
`src` rewritten per the download oracle; an eligible `img` with no
`figure` ancestor is wrapped in a new `figure` — and when its immediate
parent is an `a`, the whole anchor is wrapped instead, which is what
`scanAnchor` detects on the direct children of an anchor.  Children of the
anchor before the first eligible direct `img` were already processed (in
`find_all` document order) outside any figure; children after it sit
inside the new figure, so they are processed with `inFig := true`. -/
mutual

def wrapNode (dl : String → Bool) (base : String) (inFig : Bool) : Node → Node
  | .text s => .text s
  | .el tag attrs classes children =>
    if tag = "img" then
      let e := imgEligible base attrs
      let attrs2 := if e then rewriteSrcAttr dl base attrs else attrs
      if e && !inFig then .el "figure" [] [] [.el tag attrs2 classes children]
      else .el tag attrs2 classes children
    else if tag = "figure" then
      .el tag attrs classes (wrapList dl base true children)
    else if tag = "a" && !inFig then
      match scanAnchor dl base children with
      | (cs2, true) => .el "figure" [] [] [.el tag attrs classes cs2]
      | (cs2, false) => .el tag attrs classes cs2
    else
      .el tag attrs classes (wrapList dl base inFig children)

def wrapList (dl : String → Bool) (base : String) (inFig : Bool) :
    List Node → List Node
  | [] => []
  | c :: cs => wrapNode dl base inFig c :: wrapList dl base inFig cs

def scanAnchor (dl : String → Bool) (base : String) :
    List Node → List Node × Bool
  | [] => ([], false)
  | c :: cs =>
    match c with
    | .el tag attrs classes children =>
      if tag = "img" && imgEligible base attrs then
        (.el tag (rewriteSrcAttr dl base attrs) classes children
           :: wrapList dl base true cs, true)
      else
        let r := scanAnchor dl base cs
        (wrapNode dl base false c :: r.1, r.2)
    | .text s =>
      let r := scanAnchor dl base cs
      (.text s :: r.1, r.2)

end

/-- Is some direct child an eligible `img` (the condition under which the
step-3 loop reaches `img.parent.name == "a"` for this anchor)? -/
def hasEligibleImgChild (base : String) : List Node → Bool
  | [] => false
  | .text _ :: cs => hasEligibleImgChild base cs
  | .el tag attrs _ _ :: cs =>
    (tag = "img" && imgEligible base attrs) || hasEligibleImgChild base cs

/-! Checker for the wrapping postcondition: under `inFig = false`, every
eligible `img` must have a `figure` ancestor.  `img` is a void element in
HTML, so it is treated as a leaf. -/
mutual

def imgsWrapped (base : String) (inFig : Bool) : Node → Bool
  | .text _ => true
  | .el tag attrs _ children =>
    if tag = "img" then inFig || !imgEligible base attrs
    else if tag = "figure" then imgsWrappedList base true children
    else imgsWrappedList base inFig children

def imgsWrappedList (base : String) (inFig : Bool) : List Node → Bool
  | [] => true
  | c :: cs => imgsWrapped base inFig c && imgsWrappedList base inFig cs

end

/-! First `div` carrying class `post-body-container`, in preorder document
order (model of `soup.find("div", class_="post-body-container")`,
convert_post.py line 37); returns its children, since only
`decode_contents` of the container is used (line 43). -/
mutual

def findContainerN : Node → Option (List Node)
  | .text _ => none
  | .el tag _ classes children =>
    if tag = "div" && classes.contains "post-body-container" then some children
    else findContainerChildren children

def findContainerChildren : List Node → Option (List Node)
  | [] => none
  | c :: rest =>
    match findContainerN c with
    | some r => some r
    | none => findContainerChildren rest

end

/-! Does the document contain any `div` carrying the content-container
class? -/
mutual

def hasContainerN : Node → Bool
  | .text _ => false
  | .el tag _ classes children =>
    (tag = "div" && classes.contains "post-body-container")
      || hasContainerDiv children

def hasContainerDiv : List Node → Bool
  | [] => false
  | c :: rest => hasContainerN c || hasContainerDiv rest

end

/-- Serialize the class list as one attribute value. -/
def renderClasses : List String → String
  | [] => ""
  | [c] => c
  | c :: cs => c ++ " " ++ renderClasses cs

/-- Serialize attributes. -/
def renderAttrs : List (String × String) → String
  | [] => ""
  | (k, v) :: rest => " " ++ k ++ "=\"" ++ v ++ "\"" ++ renderAttrs rest

/-! Simple serialization of the cleaned body (model of
`body.decode_contents()`). -/
mutual

def renderNode : Node → String
  | .text s => s
  | .el tag attrs classes children =>
    "<" ++ tag
      ++ (if classes.isEmpty then "" else " class=\"" ++ renderClasses classes ++ "\"")
      ++ renderAttrs attrs ++ ">" ++ renderList children ++ "</" ++ tag ++ ">"

def renderList : List Node → String
  | [] => ""
  | c :: cs => renderNode c ++ renderList cs

end

/-! First `title` element's text, in preorder (model of
`soup.title.string`, empty when absent). -/
mutual

def findTitleN : Node → String
  | .text _ => ""
  | .el tag _ _ children =>
    if tag = "title" then
      match children with
      | [.text s] => s
      | _ => ""
    else findTitle children

def findTitle : List Node → String
  | [] => ""
  | c :: rest =>
    let r := findTitleN c
    if r = "" then findTitle rest else r

end

/-- The fixed output shell of the converter (convert_post.py lines 92-106). -/
def htmlShell (title bodyHtml : String) : String :=
  "<!DOCTYPE html>\n<html lang=\"en\">\n<head>\n  <meta charset=\"utf-8\" />\n"
    ++ "  <meta name=\"viewport\" content=\"width=device-width, initial-scale=1\">\n"
    ++ "  <link rel=\"stylesheet\" href=\"https://cootermaroos.com/tufte.css\">\n"
    ++ "  <title>" ++ title ++ "</title>\n</head>\n<body>\n<article>\n"
    ++ bodyHtml ++ "\n</article>\n</body>\n</html>\n"

/-- Observable outcome of `convert_post`: the raised error or the returned
output path, plus directories created and files written. -/
structure ConvOut where
  result : Except String String
  dirs : List String
  writes : List (String × String)

/-- Model of `convert_post` (convert_post.py lines 28-114).  The document
`doc` is the parsed page, `url` its address.  When no
`post-body-container` div exists, the RuntimeError is raised before any
directory or file is created.  Otherwise the container's contents go
through the three cleanup steps and the shell document is written under a
filename derived from the URL basename. -/
def convertPost (dl : String → Bool) (url : String) (doc : List Node)
    (outDir : String) : ConvOut :=
  match findContainerChildren doc with
  | none =>
    { result := .error "post-body-container div not found", dirs := [], writes := [] }
  | some body =>
    let b1 := sepToFigure body
    let b2 := cleanDivs b1
    let b3 := wrapList dl url false b2
    let bn := urlBasename url
    let filename := if bn = "" then "index.html" else bn
    let outPath := outDir ++ "/" ++ filename
    { result := .ok outPath,
      dirs := [outDir, outDir ++ "/img"],
      writes := [(outPath, htmlShell (findTitle doc) (renderList b3))] }

/-! ## Concrete fixtures used by witnesses and counterexamples -/

/-- An environment whose scanners find nothing; individual scenarios
override the relevant scanner together with the fetched HTML. -/
def envNoScan : ArchEnv :=
  { dl := fun _ => true, fetch := fun _ => "", scanCss := fun _ => [],
    scanImageSrc := fun _ => [], scanOgImage := fun _ => [],
    scanImgTags := fun _ => [], fmtTs := fun _ => "T" }

/-- A post whose canonical HTML link is `href`. -/
def postHtml (href : String) : Post :=
  { title := "t", published := "p",
    links := [{ rel := "alternate", typ := "text/html", href := href }] }

/-- A post with links but no `alternate`/`text/html` one. -/
def postNoLink : Post :=
  { title := "t", published := "p",
    links := [{ rel := "self", typ := "application/atom+xml", href := "u" }] }

/-- The empty image-phase state (as built at blog_arch.py line 104). -/
def st0 : ArchSt := { mapping := [], attempts := [], logs := [] }

end Copa

namespace Copa

/-! ## Shared lemmas about substring replacement and lookup -/

/-- A replacement whose pattern does not occur in the text is the
identity, at every fuel. -/
theorem replaceAllGo_id (pat repl : List Char) :
    ∀ (fuel : Nat) (s : List Char), containsSubL pat s = false →
      replaceAllGo pat repl fuel s = s := by
  intro fuel
  induction fuel with
  | zero => intro s h; cases s <;> rfl
  | succ n ih =>
    intro s h
    cases s with
    | nil => rfl
    | cons c cs =>
      have h2 : pat.isPrefixOf (c :: cs) = false ∧ containsSubL pat cs = false := by
        simpa [containsSubL] using h
      simp [replaceAllGo, h2.1, ih cs h2.2]

/-- `str.replace` with a non-occurring pattern is the identity. -/
theorem replaceAllStr_id (pat repl s : String)
    (h : containsSubStr pat s = false) : replaceAllStr pat repl s = s := by
  unfold replaceAllStr replaceAllL
  unfold containsSubStr at h
  rw [replaceAllGo_id pat.data repl.data s.data.length s.data h]

/-- The final rewrite pass is the identity on a text containing none of
the mapping's original URLs. -/
theorem finalRewrite_id (m : List (String × String)) (s : String)
    (h : ∀ p ∈ m, containsSubStr p.1 s = false) : finalRewrite m s = s := by
  induction m with
  | nil => rfl
  | cons p rest ih =>
    unfold finalRewrite at ih ⊢
    simp only [List.foldl_cons]
    rw [replaceAllStr_id p.1 p.2 s (h p (by simp))]
    exact ih (fun q hq => h q (by simp [hq]))

/-- Lookup distributes over append. -/
theorem alookup_append (l1 l2 : List (String × String)) (k : String) :
    alookup (l1 ++ l2) k
      = match alookup l1 k with
        | some v => some v
        | none => alookup l2 k := by
  induction l1 with
  | nil => simp [alookup]
  | cons p rest ih =>
    obtain ⟨k1, v1⟩ := p
    by_cases hk : k1 = k
    · simp [alookup, hk]
    · simp only [List.cons_append, alookup, if_neg hk]
      exact ih

/-- A key is absent from the association list iff the lookup fails. -/
theorem alookup_eq_none_iff (m : List (String × String)) (k : String) :
    alookup m k = none ↔ k ∉ m.map Prod.fst := by
  induction m with
  | nil => simp [alookup]
  | cons p rest ih =>
    obtain ⟨k1, v1⟩ := p
    by_cases hk : k1 = k
    · simp [alookup, hk]
    · simp only [alookup, hk, if_false, ih, List.map_cons, List.mem_cons]
      constructor
      · intro h hor
        rcases hor with h1 | h2
        · exact hk h1.symm
        · exact h h2
      · intro h h2
        exact h (Or.inr h2)

/-! ## Claim C3: idempotence of the final rewrite pass -/

/-- Claim C3 is false as stated: the final rewrite pass of `archive_post`
(blog_arch.py lines 165-167) is not idempotent, because a produced local
path can contain the original URL as a substring.  Concretely, an `img`
src `images/x` on page `http://h/p` resolves to `http://h/images/x`, is
stored as local path `./images/x`, and the once-rewritten HTML
`<img src="./images/x">` still contains `images/x`, so a second pass
rewrites it again. -/
theorem c3_rewrite_counterexample :
    finalRewrite (imagePhases (fun _ => true) "http://h/p" [] [] ["images/x"] st0).mapping
        (finalRewrite
          (imagePhases (fun _ => true) "http://h/p" [] [] ["images/x"] st0).mapping
          "<img src=\"images/x\">")
      ≠ finalRewrite
          (imagePhases (fun _ => true) "http://h/p" [] [] ["images/x"] st0).mapping
          "<img src=\"images/x\">" := by
  decide

/-- Claim C3 (amended): the final rewrite pass is idempotent whenever no
original URL of the mapping occurs as a substring of the once-rewritten
text (the claim's justification — that produced local paths never contain
an original URL — does not hold in general, see the counterexample). -/
theorem c3_rewrite_amended (m : List (String × String)) (h : String)
    (hc : ∀ p ∈ m, containsSubStr p.1 (finalRewrite m h) = false) :
    finalRewrite m (finalRewrite m h) = finalRewrite m h :=
  finalRewrite_id m (finalRewrite m h) hc

/-- Witness for the amended C3 at a concrete mapping and text. -/
theorem c3_rewrite_witness :
    finalRewrite [("http://h/a.png", "./images/a.png")]
        (finalRewrite [("http://h/a.png", "./images/a.png")] "<img src=\"http://h/a.png\">")
      = finalRewrite [("http://h/a.png", "./images/a.png")] "<img src=\"http://h/a.png\">" :=
  c3_rewrite_amended [("http://h/a.png", "./images/a.png")] "<img src=\"http://h/a.png\">"
    (by decide)

/-! ## Claim C4: data URIs -/

/-- Claim C4 is false as stated: a data-URI image reference is indeed
never downloaded (see the amended theorem), but it is not always left
byte-for-byte unchanged in the output, because the final rewrite pass
replaces every occurrence of every mapped original URL anywhere in the
text — including inside a data URI.  Here page `http://h/p` references
`http://h/x` (mapped to `./images/x`) and the data URI
`data:,http://h/x`; the output rewrites the inside of the data URI, and
the original data URI no longer occurs in the written HTML. -/
theorem c4_data_uri_counterexample :
    (archivePost { envNoScan with
        fetch := fun _ => "<img src=\"http://h/x\"><img src=\"data:,http://h/x\">",
        scanImgTags := fun _ => ["http://h/x", "data:,http://h/x"] }
      (postHtml "http://h/p") "o").attempts = ["http://h/x"]
    ∧ (archivePost { envNoScan with
        fetch := fun _ => "<img src=\"http://h/x\"><img src=\"data:,http://h/x\">",
        scanImgTags := fun _ => ["http://h/x", "data:,http://h/x"] }
      (postHtml "http://h/p") "o").writes
      = [("o/T/index.html", "<img src=\"./images/x\"><img src=\"data:,./images/x\">")]
    ∧ containsSubStr "data:,http://h/x"
        "<img src=\"./images/x\"><img src=\"data:,./images/x\">" = false := by
  exact ⟨by decide, by decide, by decide⟩

/-- Claim C4 (amended): an image reference starting with `data:` is never
downloaded and never enters the mapping (the image-discovery step leaves
the state untouched, blog_arch.py lines 113-114/134-135/151-152); and the
final rewrite pass leaves any text — in particular a data URI — unchanged
provided no mapped original URL occurs inside it as a substring. -/
theorem c4_data_uri_amended :
    (∀ (dl : String → Bool) (page kind : String) (st : ArchSt) (orig : String),
        startsWithStr "data:" orig = true →
        procImageRef dl page kind st orig = st)
    ∧ (∀ (m : List (String × String)) (s : String),
        (∀ p ∈ m, containsSubStr p.1 s = false) → finalRewrite m s = s) := by
  constructor
  · intro dl page kind st orig h
    simp [procImageRef, h]
  · exact finalRewrite_id

/-- Witness for the amended C4: a concrete data URI is skipped, and a
concrete rewrite with a non-occurring original is the identity. -/
theorem c4_data_uri_witness :
    procImageRef (fun _ => true) "http://h/p" "IMG" st0 "data:,z" = st0
    ∧ finalRewrite [("http://h/a.png", "./images/a.png")] "<p>data:,z</p>"
      = "<p>data:,z</p>" :=
  ⟨c4_data_uri_amended.1 (fun _ => true) "http://h/p" "IMG" st0 "data:,z" (by decide),
   c4_data_uri_amended.2 [("http://h/a.png", "./images/a.png")] "<p>data:,z</p>" (by decide)⟩

/-! ## Claim C1: one download attempt per distinct URL -/

/-- Every stylesheet iteration records exactly one download attempt, for
the resolved href (blog_arch.py lines 84-99: the download is attempted
unconditionally, with no deduplication). -/
theorem procCssRef_attempts (dl : String → Bool) (page : String) (st : CssSt)
    (orig : String) :
    (procCssRef dl page st orig).attempts = st.attempts ++ [urljoin page orig] := by
  simp only [procCssRef]
  split <;> rfl

/-- The stylesheet loop makes one attempt per discovered tag. -/
theorem cssFold_attempts (dl : String → Bool) (page : String) :
    ∀ (refs : List String) (st : CssSt),
      (refs.foldl (procCssRef dl page) st).attempts
        = st.attempts ++ refs.map (urljoin page) := by
  intro refs
  induction refs with
  | nil => intro st; simp
  | cons r rest ih =>
    intro st
    simp only [List.foldl_cons, List.map_cons, ih, procCssRef_attempts]
    simp

/-- An image-phase step never maps an original twice: on success the
appended key is exactly the processed original, which the step just
checked to be absent. -/
theorem procImageRef_nodup (dl : String → Bool) (page kind : String)
    (st : ArchSt) (orig : String)
    (h : (st.mapping.map Prod.fst).Nodup) :
    ((procImageRef dl page kind st orig).mapping.map Prod.fst).Nodup := by
  simp only [procImageRef]
  split
  · exact h
  · rename_i hcond
    have hnone : alookup st.mapping orig = none := by
      rcases h2 : alookup st.mapping orig with _ | v
      · rfl
      · exact absurd (by simp [h2]) hcond
    split
    · exact h
    · split
      · simp only [List.map_append, List.map_cons, List.map_nil]
        rw [List.nodup_append]
        refine ⟨h, List.nodup_singleton orig, ?_⟩
        intro a ha hb
        simp only [List.mem_singleton] at hb
        exact (alookup_eq_none_iff st.mapping orig).mp hnone (hb ▸ ha)
      · exact h

/-- Folding an image phase preserves key distinctness. -/
theorem imageFold_nodup (dl : String → Bool) (page kind : String) :
    ∀ (refs : List String) (st : ArchSt),
      (st.mapping.map Prod.fst).Nodup →
      (((refs.foldl (procImageRef dl page kind) st)).mapping.map Prod.fst).Nodup := by
  intro refs
  induction refs with
  | nil => intro st h; exact h
  | cons r rest ih =>
    intro st h
    simp only [List.foldl_cons]
    exact ih _ (procImageRef_nodup dl page kind st r h)

/-- Claim C1 is false as stated: the number of download attempts is not
one per distinct resolved URL.  Three concrete runs of `archive_post`:
(a) two stylesheet tags with the same href are both downloaded (the
stylesheet loop has no deduplication, blog_arch.py lines 84-99);
(b) two different original strings (`pic.png`, `./pic.png`) resolving to
the same absolute URL are both downloaded (the mapping is keyed by the
original string, not the resolved URL, lines 151-160);
(c) after a failed attempt the same original is re-attempted by a later
discovery context (only success inserts into the mapping, lines 113/151).
Each run references exactly one distinct resolved URL yet makes two
download attempts. -/
theorem c1_dedup_counterexample :
    (archivePost { envNoScan with
        fetch := fun _ => "<link rel=\"stylesheet\" href=\"http://h/a.css\"><link rel=\"stylesheet\" href=\"http://h/a.css\">",
        scanCss := fun _ => ["http://h/a.css", "http://h/a.css"] }
      (postHtml "http://h/d/p") "o").attempts = ["http://h/a.css", "http://h/a.css"]
    ∧ (archivePost { envNoScan with
        fetch := fun _ => "<img src=\"pic.png\"><img src=\"./pic.png\">",
        scanImgTags := fun _ => ["pic.png", "./pic.png"] }
      (postHtml "http://h/d/p") "o").attempts
      = ["http://h/d/pic.png", "http://h/d/pic.png"]
    ∧ (archivePost { envNoScan with
        dl := fun _ => false,
        fetch := fun _ => "<link rel=\"image_src\" href=\"http://h/x\"><img src=\"http://h/x\">",
        scanImageSrc := fun _ => ["http://h/x"],
        scanImgTags := fun _ => ["http://h/x"] }
      (postHtml "http://h/d/p") "o").attempts = ["http://h/x", "http://h/x"] := by
  exact ⟨by decide, by decide, by decide⟩

/-- Claim C1 (amended): the stylesheet loop attempts exactly one download
per discovered stylesheet tag (no deduplication at all); across the three
image contexts, deduplication is by original URL string and only records
successful downloads — the accumulated mapping never holds two entries
for one original, and an original already present in the mapping is never
re-attempted. -/
theorem c1_dedup_amended :
    (∀ (dl : String → Bool) (page : String) (refs : List String) (st : CssSt),
        (refs.foldl (procCssRef dl page) st).attempts
          = st.attempts ++ refs.map (urljoin page))
    ∧ (∀ (dl : String → Bool) (page : String) (srcR ogR imgR : List String)
          (st : ArchSt),
        (st.mapping.map Prod.fst).Nodup →
        ((imagePhases dl page srcR ogR imgR st).mapping.map Prod.fst).Nodup)
    ∧ (∀ (dl : String → Bool) (page kind : String) (st : ArchSt) (orig : String),
        (alookup st.mapping orig).isSome = true →
        procImageRef dl page kind st orig = st) := by
  refine ⟨fun dl page refs st => cssFold_attempts dl page refs st, ?_, ?_⟩
  · intro dl page srcR ogR imgR st h
    unfold imagePhases
    exact imageFold_nodup dl page "IMG" imgR _
      (imageFold_nodup dl page "OG-IMAGE" ogR _
        (imageFold_nodup dl page "IMAGE_SRC" srcR st h))
  · intro dl page kind st orig h
    simp [procImageRef, h]

/-- Witness for the amended C1 at concrete inputs. -/
theorem c1_dedup_witness :
    (["http://h/a.css"].foldl (procCssRef (fun _ => true) "http://h/p")
        { html := "", attempts := [], logs := [] }).attempts
      = [] ++ ["http://h/a.css"].map (urljoin "http://h/p")
    ∧ ((imagePhases (fun _ => true) "http://h/p" ["http://h/x"] [] []
          st0).mapping.map Prod.fst).Nodup
    ∧ procImageRef (fun _ => true) "http://h/p" "IMG"
        { mapping := [("u", "./images/u")], attempts := [], logs := [] } "u"
      = { mapping := [("u", "./images/u")], attempts := [], logs := [] } :=
  ⟨c1_dedup_amended.1 (fun _ => true) "http://h/p" ["http://h/a.css"]
      { html := "", attempts := [], logs := [] },
   c1_dedup_amended.2.1 (fun _ => true) "http://h/p" ["http://h/x"] [] [] st0
      (by decide),
   c1_dedup_amended.2.2 (fun _ => true) "http://h/p" "IMG"
      { mapping := [("u", "./images/u")], attempts := [], logs := [] } "u"
      (by decide)⟩

/-! ## Claim C2: post without an HTML link -/

/-- Claim C2 is false as stated: `archive_post` creates the post's output
directory (blog_arch.py lines 63-64, `os.makedirs(post_dir)`) before it
looks for the HTML link (lines 67-74), so a linkless post does leave a
directory on disk even though it is skipped. -/
theorem c2_skip_counterexample :
    (archivePost envNoScan postNoLink "o").skipped = true
    ∧ (archivePost envNoScan postNoLink "o").dirs ≠ [] := by
  exact ⟨by decide, by decide⟩

/-- Claim C2 (amended): for a feed entry whose links contain no
`alternate`/`text/html` entry, `archive_post` prints a skip warning and
returns without error, having attempted no download and written no file —
but the post's output directory itself has already been created. -/
theorem c2_skip_amended (env : ArchEnv) (post : Post) (outRoot : String)
    (h : htmlLink post = none) :
    archivePost env post outRoot
      = { dirs := [outRoot ++ "/" ++ env.fmtTs post.published], attempts := [],
          logs := ["SKIP " ++ post.title], writes := [], skipped := true } := by
  simp [archivePost, h]

/-- Witness for the amended C2 at a concrete linkless post. -/
theorem c2_skip_witness :
    archivePost envNoScan postNoLink "o"
      = { dirs := ["o" ++ "/" ++ envNoScan.fmtTs postNoLink.published],
          attempts := [], logs := ["SKIP " ++ postNoLink.title], writes := [],
          skipped := true } :=
  c2_skip_amended envNoScan postNoLink "o" (by decide)

/-! ## Claim C5: empty path basename -/

/-- Claim C5 is false as stated for stylesheets: a stylesheet reference
whose resolved URL has an empty path basename is still downloaded, under
the fallback name `style.css` (blog_arch.py line 91,
`... or "style.css"`), and its reference is rewritten to
`./css/style.css`. -/
theorem c5_basename_counterexample :
    (archivePost { envNoScan with
        fetch := fun _ => "<link rel=\"stylesheet\" href=\"http://h/\">",
        scanCss := fun _ => ["http://h/"] }
      (postHtml "http://h/p") "o").attempts = ["http://h/"]
    ∧ (archivePost { envNoScan with
        fetch := fun _ => "<link rel=\"stylesheet\" href=\"http://h/\">",
        scanCss := fun _ => ["http://h/"] }
      (postHtml "http://h/p") "o").writes
      = [("o/T/index.html", "<link rel=\"stylesheet\" href=\"./css/style.css\">")] := by
  exact ⟨by decide, by decide⟩

/-- Claim C5 (amended): an image reference (image_src, og:image or img)
whose resolved URL has an empty path basename is skipped — no download
attempt, no mapping entry, so the final pass has nothing to rewrite it
with (blog_arch.py lines 116-118/137-139/154-156); a stylesheet reference
with an empty basename is instead downloaded under the fallback name
`style.css` and rewritten to `./css/style.css` (line 91). -/
theorem c5_basename_amended :
    (∀ (dl : String → Bool) (page kind : String) (st : ArchSt) (orig : String),
        urlBasename (urljoin page orig) = "" →
        procImageRef dl page kind st orig = st)
    ∧ (∀ (dl : String → Bool) (page : String) (st : CssSt) (orig : String),
        urlBasename (urljoin page orig) = "" →
        dl (urljoin page orig) = true →
        procCssRef dl page st orig
          = { html := replaceAllStr orig "./css/style.css" st.html,
              attempts := st.attempts ++ [urljoin page orig],
              logs := st.logs ++ ["OK CSS style.css"] }) := by
  constructor
  · intro dl page kind st orig h
    simp only [procImageRef]
    split
    · rfl
    · simp [h]
  · intro dl page st orig h hdl
    simp [procCssRef, h, hdl]

/-- Witness for the amended C5 at `http://h/` (path `/`, empty basename). -/
theorem c5_basename_witness :
    procImageRef (fun _ => true) "http://h/p" "IMG" st0 "http://h/" = st0
    ∧ procCssRef (fun _ => true) "http://h/p"
        { html := "<x>", attempts := [], logs := [] } "http://h/"
      = { html := replaceAllStr "http://h/" "./css/style.css" "<x>",
          attempts := [] ++ [urljoin "http://h/p" "http://h/"],
          logs := [] ++ ["OK CSS style.css"] } :=
  ⟨c5_basename_amended.1 (fun _ => true) "http://h/p" "IMG" st0 "http://h/"
      (by decide),
   c5_basename_amended.2 (fun _ => true) "http://h/p"
      { html := "<x>", attempts := [], logs := [] } "http://h/"
      (by decide) (by decide)⟩

/-! ## Claim C6: a failed asset download is caught and skipped -/

/-- The exact effect of one failed image download (blog_arch.py lines
120-125/141-146/158-163): the attempt and the error message are recorded,
the mapping is untouched. -/
theorem procImageRef_fail (dl : String → Bool) (page kind : String)
    (st : ArchSt) (orig : String)
    (h1 : startsWithStr "data:" orig = false)
    (h2 : alookup st.mapping orig = none)
    (h3 : urlBasename (urljoin page orig) ≠ "")
    (h4 : dl (urljoin page orig) = false) :
    procImageRef dl page kind st orig
      = { mapping := st.mapping,
          attempts := st.attempts ++ [urljoin page orig],
          logs := st.logs ++ ["ERR " ++ kind ++ " " ++ urljoin page orig] } := by
  simp [procImageRef, h1, h2, h3, h4]

/-- A step of an image phase never inserts a URL whose download fails. -/
theorem procImageRef_keeps_none (dl : String → Bool) (page kind orig : String)
    (hdl : dl (urljoin page orig) = false) (st : ArchSt) (o2 : String)
    (h : alookup st.mapping orig = none) :
    alookup (procImageRef dl page kind st o2).mapping orig = none := by
  simp only [procImageRef]
  split
  · exact h
  · split
    · exact h
    · split
      · rename_i hdl2
        rw [alookup_append, h]
        simp only [alookup]
        by_cases heq : o2 = orig
        · exfalso
          rw [heq] at hdl2
          rw [hdl] at hdl2
          exact Bool.noConfusion hdl2
        · simp [heq]
      · exact h

/-- Folding an image phase keeps a failing URL out of the mapping. -/
theorem imageFold_keeps_none (dl : String → Bool) (page kind orig : String)
    (hdl : dl (urljoin page orig) = false) :
    ∀ (refs : List String) (st : ArchSt),
      alookup st.mapping orig = none →
      alookup ((refs.foldl (procImageRef dl page kind) st)).mapping orig = none := by
  intro refs
  induction refs with
  | nil => intro st h; exact h
  | cons r rest ih =>
    intro st h
    simp only [List.foldl_cons]
    exact ih _ (procImageRef_keeps_none dl page kind orig hdl st r h)

/-- Claim C6 is false in one part: the failed asset's reference is not
always left unrewritten in the bulk archiver's output.  Step 5
(blog_arch.py lines 165-167) does whole-text substring replacement, so a
*successful* original URL that occurs inside a failed reference rewrites
it anyway.  Concretely, page `http://h/p` references `http://h/i`
(download succeeds, mapped to `./images/i`) and `http://h/i2` (download
fails, logged, absent from the mapping); the final pass turns
`http://h/i2` into `./images/i2` — a local path that was never
downloaded — and the failed reference no longer occurs in the written
output at all. -/
theorem c6_asset_failure_counterexample :
    (archivePost { envNoScan with
        dl := fun u => u == "http://h/i",
        fetch := fun _ => "<img src=\"http://h/i\"><img src=\"http://h/i2\">",
        scanImgTags := fun _ => ["http://h/i", "http://h/i2"] }
      (postHtml "http://h/p") "o").attempts = ["http://h/i", "http://h/i2"]
    ∧ (archivePost { envNoScan with
        dl := fun u => u == "http://h/i",
        fetch := fun _ => "<img src=\"http://h/i\"><img src=\"http://h/i2\">",
        scanImgTags := fun _ => ["http://h/i", "http://h/i2"] }
      (postHtml "http://h/p") "o").logs
      = ["OK IMG i", "ERR IMG http://h/i2", "ARCHIVED t"]
    ∧ (archivePost { envNoScan with
        dl := fun u => u == "http://h/i",
        fetch := fun _ => "<img src=\"http://h/i\"><img src=\"http://h/i2\">",
        scanImgTags := fun _ => ["http://h/i", "http://h/i2"] }
      (postHtml "http://h/p") "o").writes
      = [("o/T/index.html", "<img src=\"./images/i\"><img src=\"./images/i2\">")]
    ∧ containsSubStr "http://h/i2"
        "<img src=\"./images/i\"><img src=\"./images/i2\">" = false := by
  exact ⟨by decide, by decide, by decide, by decide⟩

/-- Claim C6 (amended): a single asset whose download raises is caught
and logged, its reference never enters the mapping — so the final pass
never rewrites it to a local path of its own — the remaining assets are
still processed and the post output is still written; the failed
reference is left textually unrewritten in the output provided no
successfully mapped original URL occurs inside it as a substring (the
whole-text final pass can otherwise alter it, see the counterexample).
In the converter, a failed image download keeps the original remote
`src` while the figure wrapping still happens.  Conjuncts: (1) the exact
effect of one failed image download; (2) a URL whose download fails is
absent from the mapping after all three image phases; (3) a post with an
HTML link always gets exactly one written output file, whatever the
download oracle does; (4) in the converter, the `src` rewrite is the
identity when the download fails; (5) the converter still wraps an
eligible image in a figure with its attributes unchanged when its
download fails; (6) the final pass leaves a reference unchanged when no
mapped original occurs inside it. -/
theorem c6_asset_failure :
    (∀ (dl : String → Bool) (page kind : String) (st : ArchSt) (orig : String),
        startsWithStr "data:" orig = false →
        alookup st.mapping orig = none →
        urlBasename (urljoin page orig) ≠ "" →
        dl (urljoin page orig) = false →
        procImageRef dl page kind st orig
          = { mapping := st.mapping,
              attempts := st.attempts ++ [urljoin page orig],
              logs := st.logs ++ ["ERR " ++ kind ++ " " ++ urljoin page orig] })
    ∧ (∀ (dl : String → Bool) (page orig : String) (srcR ogR imgR : List String)
          (st : ArchSt),
        dl (urljoin page orig) = false →
        alookup st.mapping orig = none →
        alookup (imagePhases dl page srcR ogR imgR st).mapping orig = none)
    ∧ (∀ (env : ArchEnv) (post : Post) (outRoot url : String),
        htmlLink post = some url →
        (archivePost env post outRoot).writes.length = 1
          ∧ (archivePost env post outRoot).skipped = false)
    ∧ (∀ (dl : String → Bool) (base : String) (attrs : List (String × String))
          (src : String),
        alookup attrs "src" = some src →
        dl (urljoin base src) = false →
        rewriteSrcAttr dl base attrs = attrs)
    ∧ (∀ (dl : String → Bool) (base : String) (attrs : List (String × String))
          (classes : List String) (children : List Node) (src : String),
        alookup attrs "src" = some src →
        imgEligible base attrs = true →
        dl (urljoin base src) = false →
        wrapNode dl base false (.el "img" attrs classes children)
          = .el "figure" [] [] [.el "img" attrs classes children])
    ∧ (∀ (m : List (String × String)) (ref : String),
        (∀ p ∈ m, containsSubStr p.1 ref = false) →
        finalRewrite m ref = ref) := by
  refine ⟨procImageRef_fail, ?_, ?_, ?_, ?_, ?_⟩
  · intro dl page orig srcR ogR imgR st hdl h
    unfold imagePhases
    exact imageFold_keeps_none dl page "IMG" orig hdl imgR _
      (imageFold_keeps_none dl page "OG-IMAGE" orig hdl ogR _
        (imageFold_keeps_none dl page "IMAGE_SRC" orig hdl srcR st h))
  · intro env post outRoot url h
    constructor <;> simp [archivePost, h]
  · intro dl base attrs src hs hdl
    simp [rewriteSrcAttr, hs, hdl]
  · intro dl base attrs classes children src hs he hdl
    have hr : rewriteSrcAttr dl base attrs = attrs := by
      simp [rewriteSrcAttr, hs, hdl]
    simp [wrapNode, he, hr]
  · exact finalRewrite_id

/-- Witness for the amended C6 at concrete inputs with a failing oracle. -/
theorem c6_asset_failure_witness :
    procImageRef (fun _ => false) "http://h/p" "IMG" st0 "http://h/x"
      = { mapping := st0.mapping,
          attempts := st0.attempts ++ [urljoin "http://h/p" "http://h/x"],
          logs := st0.logs ++ ["ERR " ++ "IMG" ++ " " ++ urljoin "http://h/p" "http://h/x"] }
    ∧ alookup (imagePhases (fun _ => false) "http://h/p" ["http://h/x"] []
        ["http://h/x"] st0).mapping "http://h/x" = none
    ∧ ((archivePost { envNoScan with dl := fun _ => false }
          (postHtml "http://h/p") "o").writes.length = 1
        ∧ (archivePost { envNoScan with dl := fun _ => false }
            (postHtml "http://h/p") "o").skipped = false)
    ∧ rewriteSrcAttr (fun _ => false) "http://h/p" [("src", "http://h/i.png")]
      = [("src", "http://h/i.png")]
    ∧ wrapNode (fun _ => false) "http://h/p" false
        (.el "img" [("src", "http://h/i.png")] [] [])
      = .el "figure" [] [] [.el "img" [("src", "http://h/i.png")] [] []]
    ∧ finalRewrite [("http://h/i", "./images/i")] "http://h/z"
      = "http://h/z" :=
  ⟨c6_asset_failure.1 (fun _ => false) "http://h/p" "IMG" st0 "http://h/x"
      (by decide) (by decide) (by decide) (by decide),
   c6_asset_failure.2.1 (fun _ => false) "http://h/p" "http://h/x"
      ["http://h/x"] [] ["http://h/x"] st0 (by decide) (by decide),
   c6_asset_failure.2.2.1 { envNoScan with dl := fun _ => false }
      (postHtml "http://h/p") "o" "http://h/p" (by decide),
   c6_asset_failure.2.2.2.1 (fun _ => false) "http://h/p"
      [("src", "http://h/i.png")] "http://h/i.png" (by decide) (by decide),
   c6_asset_failure.2.2.2.2.1 (fun _ => false) "http://h/p"
      [("src", "http://h/i.png")] [] [] "http://h/i.png"
      (by decide) (by decide) (by decide),
   c6_asset_failure.2.2.2.2.2 [("http://h/i", "./images/i")] "http://h/z"
      (by decide)⟩

/-! ## Claim C8: missing content container -/

/-! A document with no `post-body-container` div makes the find fail. -/
mutual

theorem findContainerN_none : (n : Node) → hasContainerN n = false →
    findContainerN n = none
  | .text _, _ => rfl
  | .el tag attrs classes children, h => by
    simp only [hasContainerN, Bool.or_eq_false_iff] at h
    simp only [findContainerN, h.1, Bool.false_eq_true, if_false]
    exact findContainerChildren_none children h.2

theorem findContainerChildren_none : (l : List Node) → hasContainerDiv l = false →
    findContainerChildren l = none
  | [], _ => rfl
  | c :: rest, h => by
    simp only [hasContainerDiv, Bool.or_eq_false_iff] at h
    simp [findContainerChildren, findContainerN_none c h.1,
      findContainerChildren_none rest h.2]

end

/-- Claim C8: when the fetched page contains no div carrying the
`post-body-container` class, `convert_post` raises the "container not
found" error (convert_post.py lines 37-39) before any directory is made
or file written (`os.makedirs` only runs at line 45, after the check). -/
theorem c8_container_missing (dl : String → Bool) (url : String)
    (doc : List Node) (outDir : String)
    (h : hasContainerDiv doc = false) :
    convertPost dl url doc outDir
      = { result := .error "post-body-container div not found",
          dirs := [], writes := [] } := by
  simp [convertPost, findContainerChildren_none doc h]

/-- Witness for C8 at a concrete container-less document. -/
theorem c8_container_missing_witness :
    convertPost (fun _ => true) "http://h/p" [.el "p" [] [] [.text "hi"]] "out"
      = { result := .error "post-body-container div not found",
          dirs := [], writes := [] } :=
  c8_container_missing (fun _ => true) "http://h/p" [.el "p" [] [] [.text "hi"]]
    "out" (by decide)

/-! ## Claim C7: figure wrapping of images -/

/-! Inside a figure the checker is trivially satisfied. -/
mutual

theorem imgsWrapped_true (base : String) : (n : Node) → imgsWrapped base true n = true
  | .text _ => rfl
  | .el tag attrs classes children => by
    simp only [imgsWrapped]
    split
    · simp
    · split
      · exact imgsWrappedList_true base children
      · exact imgsWrappedList_true base children

theorem imgsWrappedList_true (base : String) :
    (l : List Node) → imgsWrappedList base true l = true
  | [] => rfl
  | c :: cs => by
    simp only [imgsWrappedList]
    rw [imgsWrapped_true base c, imgsWrappedList_true base cs]
    rfl

end

/-! After the wrapping pass, every eligible image outside a figure sits
inside one. -/
mutual

theorem wrapNode_wraps (dl : String → Bool) (base : String) :
    (n : Node) → imgsWrapped base false (wrapNode dl base false n) = true
  | .text _ => rfl
  | .el tag attrs classes children => by
    simp only [wrapNode]
    by_cases h1 : tag = "img"
    · rw [if_pos h1]
      by_cases he : imgEligible base attrs = true
      · have h4 : (imgEligible base attrs && !false) = true := by simp [he]
        rw [if_pos h4]
        simp only [imgsWrapped]
        rw [if_pos trivial]
        exact imgsWrappedList_true base _
      · simp only [Bool.not_eq_true] at he
        rw [if_neg (by simp [he])]
        simp [imgsWrapped, h1, he]
    · rw [if_neg h1]
      by_cases h2 : tag = "figure"
      · rw [if_pos h2]
        simp [imgsWrapped, h1, h2, imgsWrappedList_true]
      · rw [if_neg h2]
        by_cases h3 : tag = "a"
        · have h4 : (decide (tag = "a") && !false) = true := by simp [h3]
          rw [if_pos h4]
          rcases hsc : scanAnchor dl base children with ⟨cs2, b⟩
          cases b
          · show imgsWrapped base false (Node.el tag attrs classes cs2) = true
            simp only [imgsWrapped]
            rw [if_neg h1, if_neg h2]
            exact scanAnchor_wraps dl base children cs2 hsc
          · show imgsWrapped base false
              (Node.el "figure" [] [] [Node.el tag attrs classes cs2]) = true
            simp only [imgsWrapped]
            rw [if_pos trivial]
            exact imgsWrappedList_true base _
        · rw [if_neg (by simp [h3])]
          simp [imgsWrapped, h1, h2, wrapList_wraps dl base children]

theorem wrapList_wraps (dl : String → Bool) (base : String) :
    (l : List Node) → imgsWrappedList base false (wrapList dl base false l) = true
  | [] => rfl
  | c :: cs => by
    simp only [wrapList, imgsWrappedList]
    rw [wrapNode_wraps dl base c, wrapList_wraps dl base cs]
    rfl

theorem scanAnchor_wraps (dl : String → Bool) (base : String) :
    (l : List Node) → (cs2 : List Node) →
      scanAnchor dl base l = (cs2, false) →
      imgsWrappedList base false cs2 = true
  | [], cs2, h => by
    simp only [scanAnchor, Prod.mk.injEq] at h
    rw [← h.1]
    rfl
  | c :: cs, cs2, h => by
    cases c with
    | text s =>
      simp only [scanAnchor, Prod.mk.injEq] at h
      rw [← h.1]
      simp only [imgsWrappedList, imgsWrapped, Bool.true_and]
      exact scanAnchor_wraps dl base cs (scanAnchor dl base cs).1
        (by rw [← h.2])
    | el tag attrs classes children =>
      by_cases hc : (tag = "img" && imgEligible base attrs) = true
      · simp only [scanAnchor, hc, if_true, Prod.mk.injEq] at h
        exact absurd h.2 (by simp)
      · simp only [Bool.not_eq_true] at hc
        simp only [scanAnchor, hc, Bool.false_eq_true, if_false, Prod.mk.injEq] at h
        rw [← h.1]
        simp only [imgsWrappedList]
        rw [wrapNode_wraps dl base (.el tag attrs classes children)]
        rw [scanAnchor_wraps dl base cs (scanAnchor dl base cs).1 (by rw [← h.2])]
        rfl

end

/-- The anchor scan triggers exactly when some direct child is an
eligible image. -/
theorem scanAnchor_snd (dl : String → Bool) (base : String) :
    (l : List Node) → (scanAnchor dl base l).2 = hasEligibleImgChild base l
  | [] => rfl
  | c :: cs => by
    cases c with
    | text s =>
      simp only [scanAnchor, hasEligibleImgChild]
      exact scanAnchor_snd dl base cs
    | el tag attrs classes children =>
      by_cases hc : (tag = "img" && imgEligible base attrs) = true
      · simp [scanAnchor, hasEligibleImgChild, hc]
      · simp only [Bool.not_eq_true] at hc
        simp [scanAnchor, hasEligibleImgChild, hc, scanAnchor_snd dl base cs]

/-- Claim C7 is false as stated: an image that is skipped by the step-3
`continue` (convert_post.py lines 67-73) — here a data-URI image — is
not wrapped in a figure even though it is not inside one: the pass leaves
the document unchanged, with the image still at top level. -/
theorem c7_wrap_counterexample :
    wrapList (fun _ => true) "http://h/p" false
        [.el "img" [("src", "data:,abc")] [] []]
      = [.el "img" [("src", "data:,abc")] [] []] := by
  rfl

/-- Claim C7 (amended): every image with a nonempty non-data `src` whose
resolved URL has a nonempty basename (the images the loop does not skip)
and that is not already inside a figure ends up inside a figure; when
such an image's immediate parent is an anchor, the whole anchor is moved
inside the new figure; otherwise the image alone is wrapped (with its
`src` rewritten per the download oracle). -/
theorem c7_wrap_amended :
    (∀ (dl : String → Bool) (base : String) (l : List Node),
        imgsWrappedList base false (wrapList dl base false l) = true)
    ∧ (∀ (dl : String → Bool) (base : String) (attrs : List (String × String))
          (classes : List String) (children : List Node),
        hasEligibleImgChild base children = true →
        ∃ cs2, wrapNode dl base false (.el "a" attrs classes children)
          = .el "figure" [] [] [.el "a" attrs classes cs2])
    ∧ (∀ (dl : String → Bool) (base : String) (attrs : List (String × String))
          (classes : List String) (children : List Node),
        imgEligible base attrs = true →
        wrapNode dl base false (.el "img" attrs classes children)
          = .el "figure" [] []
              [.el "img" (rewriteSrcAttr dl base attrs) classes children]) := by
  refine ⟨fun dl base l => wrapList_wraps dl base l, ?_, ?_⟩
  · intro dl base attrs classes children h
    have hsnd : (scanAnchor dl base children).2 = true := by
      rw [scanAnchor_snd dl base children]
      exact h
    rcases hsc : scanAnchor dl base children with ⟨cs2, b⟩
    rw [hsc] at hsnd
    simp only at hsnd
    subst hsnd
    refine ⟨cs2, ?_⟩
    show (match scanAnchor dl base children with
          | (cs3, true) => Node.el "figure" [] [] [Node.el "a" attrs classes cs3]
          | (cs3, false) => Node.el "a" attrs classes cs3)
        = Node.el "figure" [] [] [Node.el "a" attrs classes cs2]
    rw [hsc]
  · intro dl base attrs classes children he
    simp [wrapNode, he]

/-- Witness for the amended C7 at concrete trees. -/
theorem c7_wrap_witness :
    imgsWrappedList "http://h/p" false
        (wrapList (fun _ => true) "http://h/p" false
          [.el "img" [("src", "http://h/i.png")] [] [], .text "x"]) = true
    ∧ (∃ cs2, wrapNode (fun _ => true) "http://h/p" false
          (.el "a" [("href", "u")] [] [.el "img" [("src", "http://h/i.png")] [] []])
        = .el "figure" [] [] [.el "a" [("href", "u")] [] cs2])
    ∧ wrapNode (fun _ => true) "http://h/p" false
        (.el "img" [("src", "http://h/i.png")] [] [])
      = .el "figure" [] []
          [.el "img" (rewriteSrcAttr (fun _ => true) "http://h/p"
            [("src", "http://h/i.png")]) [] []] :=
  ⟨c7_wrap_amended.1 (fun _ => true) "http://h/p"
      [.el "img" [("src", "http://h/i.png")] [] [], .text "x"],
   c7_wrap_amended.2.1 (fun _ => true) "http://h/p" [("href", "u")] []
      [.el "img" [("src", "http://h/i.png")] [] []] (by decide),
   c7_wrap_amended.2.2 (fun _ => true) "http://h/p" [("src", "http://h/i.png")]
      [] [] (by decide)⟩

/-! ## Claim C10: kept divs keep their other attributes -/

/-- Claim C10: when the division-cleanup step keeps a div (because it has
at least one allowed class), the output div carries exactly the allowed
classes in their original order, and the entire remaining attribute list
— inline `style` included — is passed through unchanged
(convert_post.py lines 58-63: only `div["class"]` is assigned). -/
theorem c10_div_cleanup (attrs : List (String × String)) (classes : List String)
    (children rest : List Node)
    (h : classes.filter (fun c => allowedDivClasses.contains c) ≠ []) :
    cleanDivs (.el "div" attrs classes children :: rest)
      = .el "div" attrs (classes.filter (fun c => allowedDivClasses.contains c))
          (cleanDivs children) :: cleanDivs rest := by
  have h4 : ¬ (∀ a ∈ classes, a ∉ allowedDivClasses) := by
    intro hall
    apply h
    rw [List.filter_eq_nil_iff]
    intro a ha
    simp [hall a ha]
  simp [cleanDivs, cleanDivsN, h4]

/-- Witness for C10: a div with classes `["sidenote", "foo"]` and a style
attribute keeps `style` unchanged and exactly class `sidenote`. -/
theorem c10_div_cleanup_witness :
    cleanDivs [.el "div" [("style", "color:red")] ["sidenote", "foo"] [.text "t"]]
      = .el "div" [("style", "color:red")]
          (["sidenote", "foo"].filter (fun c => allowedDivClasses.contains c))
          (cleanDivs [.text "t"]) :: cleanDivs [] :=
  c10_div_cleanup [("style", "color:red")] ["sidenote", "foo"] [.text "t"] []
    (by decide)

/-! ## Claim C9: feed pagination -/

/-- Behaviour of the paging loop over a feed that consistently serves
pages of an underlying entry list `L` (page at 1-based start index `idx`
is `L.drop (idx - 1) |>.take pageSize`): it visits exactly the start
indices `pageStarts idx _`, requests each page with `max-results =
pageSize`, and returns the remaining entries in order. -/
theorem fetchGo_spec {α : Type} (base s e : String) (L : List α)
    (feed : Nat → List α)
    (hfeed : ∀ idx, feed idx = (L.drop (idx - 1)).take pageSize) :
    ∀ (fuel idx : Nat), 1 ≤ idx → (L.drop (idx - 1)).length + 1 ≤ fuel →
      fetchEntriesGo base s e feed idx fuel
        = some ((pageStarts idx (L.drop (idx - 1)).length).map
            (fun i => feedUrl base s e i pageSize), L.drop (idx - 1)) := by
  intro fuel
  induction fuel with
  | zero => intro idx _ h2; omega
  | succ f ih =>
    intro idx hidx hfuel
    have hps : (0 : Nat) < pageSize := by decide
    by_cases hlen : pageSize ≤ (L.drop (idx - 1)).length
    · -- a full page: recurse at idx + pageSize
      have hblen : ((L.drop (idx - 1)).take pageSize).length = pageSize := by
        simp only [List.length_take]
        omega
      have hbne : ((L.drop (idx - 1)).take pageSize).isEmpty = false := by
        rcases hb : (L.drop (idx - 1)).take pageSize with _ | ⟨x, xs⟩
        · rw [hb] at hblen
          simp only [List.length_nil] at hblen
          omega
        · rfl
      have hdrop : L.drop (idx + pageSize - 1) = (L.drop (idx - 1)).drop pageSize := by
        rw [List.drop_drop]
        congr 1
        omega
      have hfuel2 : (L.drop (idx + pageSize - 1)).length + 1 ≤ f := by
        have hlen3 := hlen
        simp only [List.length_drop] at hfuel hlen3 ⊢
        omega
      have hrec := ih (idx + pageSize) (by omega) hfuel2
      simp only [fetchEntriesGo, hfeed idx, hbne, Bool.false_eq_true, if_false,
        hblen, lt_self_iff_false]
      rw [hrec]
      rw [hdrop]
      show some (feedUrl base s e idx pageSize
            :: List.map (fun i => feedUrl base s e i pageSize)
              (pageStarts (idx + pageSize)
                (List.drop pageSize (List.drop (idx - 1) L)).length),
          List.take pageSize (List.drop (idx - 1) L)
            ++ List.drop pageSize (List.drop (idx - 1) L))
        = some (List.map (fun i => feedUrl base s e i pageSize)
            (pageStarts idx (List.drop (idx - 1) L).length),
          List.drop (idx - 1) L)
      rw [List.take_append_drop]
      have hlen2 : (List.drop pageSize (List.drop (idx - 1) L)).length
          = (List.drop (idx - 1) L).length - pageSize := by
        simp only [List.length_drop]
      rw [hlen2]
      conv_rhs => rw [pageStarts]
      rw [if_pos hlen]
      simp
    · -- last page: the batch is the whole remainder
      have htake : (L.drop (idx - 1)).take pageSize = L.drop (idx - 1) :=
        List.take_of_length_le (by omega)
      by_cases hde : (L.drop (idx - 1)).isEmpty = true
      · have hnil : L.drop (idx - 1) = [] := List.isEmpty_iff.mp hde
        simp only [fetchEntriesGo, hfeed idx, htake, hde, if_true]
        rw [pageStarts, if_neg (by rw [hnil]; simp; omega)]
        rw [hnil]
        simp
      · have hde2 : (L.drop (idx - 1)).isEmpty = false := by
          simpa using hde
        have hlt : (L.drop (idx - 1)).length < pageSize := by omega
        simp only [fetchEntriesGo, hfeed idx, htake, hde2, Bool.false_eq_true,
          if_false]
        rw [if_pos hlt]
        rw [pageStarts, if_neg (by omega)]
        simp

/-- Claim C9: `fetch_entries` requests pages of the fixed size 100
starting at start-index 1, advances the start index by the number of
entries the previous page returned, stops exactly when a page is empty or
shorter than the page size, and returns the concatenation of the pages in
order.  Conjunct 1 is the one-step law of the loop (blog_arch.py lines
33-48): the URL of every request carries `max-results = pageSize`, an
empty batch or a short batch ends the loop, and otherwise the start index
advances by the batch length.  Conjunct 2: over any feed that serves
pages of an underlying list `L` (so the page at index `idx` holds
`L.drop (idx-1) |>.take 100`), the loop starts at index 1, visits exactly
the indices `1, 101, 201, ...` given by `pageStarts`, and returns all of
`L` in order. -/
theorem c9_pagination :
    (∀ (α : Type) (base s e : String) (feed : Nat → List α) (idx fuel : Nat),
        fetchEntriesGo base s e feed idx (fuel + 1)
          = (if (feed idx).isEmpty then
              some ([feedUrl base s e idx pageSize], [])
            else if (feed idx).length < pageSize then
              some ([feedUrl base s e idx pageSize], feed idx)
            else
              match fetchEntriesGo base s e feed (idx + (feed idx).length) fuel with
              | none => none
              | some (us, es) =>
                some (feedUrl base s e idx pageSize :: us, feed idx ++ es)))
    ∧ (∀ (α : Type) (base s e : String) (L : List α) (feed : Nat → List α),
        (∀ idx, feed idx = (L.drop (idx - 1)).take pageSize) →
        ∀ fuel, L.length + 1 ≤ fuel →
          fetchEntries base s e feed fuel
            = some ((pageStarts 1 L.length).map
                (fun i => feedUrl base s e i pageSize), L)) := by
  constructor
  · intro α base s e feed idx fuel
    rfl
  · intro α base s e L feed hfeed fuel hfuel
    have h := fetchGo_spec base s e L feed hfeed fuel 1 (by omega)
      (by simpa using hfuel)
    unfold fetchEntries
    simpa using h

/-- Witness for C9: a three-entry feed is fetched in one page of size
less than 100, visiting only start index 1. -/
theorem c9_pagination_witness :
    fetchEntries "http://b" "s" "e"
        (fun idx => ((["a", "b", "c"] : List String).drop (idx - 1)).take pageSize) 4
      = some ((pageStarts 1 (["a", "b", "c"] : List String).length).map
          (fun i => feedUrl "http://b" "s" "e" i pageSize), ["a", "b", "c"]) :=
  c9_pagination.2 String "http://b" "s" "e" ["a", "b", "c"]
    (fun idx => ((["a", "b", "c"] : List String).drop (idx - 1)).take pageSize)
    (fun _ => rfl) 4 (by decide)

end Copa
